import Mathlib

/-!
Shallow embedding of `src/make-gallery-pages.py` (the gallery page
generator).  Python dictionaries holding parsed YAML data are embedded as
association lists of `String × Val` (insertion ordered, unique keys in any
dictionary produced by the YAML parser); filesystem paths are embedded as
lists of path components (`os.path.dirname` drops the last component,
`os.path.basename` takes it); side effects (file writes, copies, prints)
are collected in an explicit effect list; an uncaught Python exception is
an `Except.error` carrying the kind of exception.
-/

set_option autoImplicit false

namespace Gallery

/-- A Python/YAML value as it occurs in this program: `None`, a string, an
integer, a dictionary, or a list. -/
inductive Val : Type where
  | vnull
  | vstr (s : String)
  | vnat (n : Nat)
  | vmap (m : List (String × Val))
  | vlist (l : List Val)

/-- An `ExampleRecord`: a Python dictionary with string keys, embedded as an
insertion-ordered association list. -/
abbrev Record := List (String × Val)

/-- A filesystem path, embedded as its list of components. -/
abbrev Path := List String

/-- Dictionary lookup (`d.get(k)` / `k in d` support): first entry whose key
matches.  Dictionaries built by the YAML parser have unique keys, so
first-match equals the Python lookup. -/
def aget {β : Type} : List (String × β) → String → Option β
  | [], _ => none
  | (k, v) :: rest, k2 => if k = k2 then some v else aget rest k2

/-- Dictionary assignment `d[k] = v`: updates the entry in place when the key
is present (Python keeps the key's insertion position), appends otherwise. -/
def aset {β : Type} : List (String × β) → String → β → List (String × β)
  | [], k, v => [(k, v)]
  | (k2, v2) :: rest, k, v =>
    if k2 = k then (k2, v) :: rest else (k2, v2) :: aset rest k v

/-- `base.update(overlay)` (line 149): every key of `overlay` is written into
`base`, so overlay values win on collision and keys only in `base` remain. -/
def rupdate (base overlay : Record) : Record :=
  overlay.foldl (fun acc kv => aset acc kv.1 kv.2) base

/-- `os.path.dirname` on a component path: drop the last component. -/
def pathDirname (p : Path) : Path := p.dropLast

/-- `os.path.basename` on a component path: the last component. -/
def pathBasename (p : Path) : String := p.getLastD ""

/-- `s.replace('\n', '')` on the character list (line 161). -/
def stripLF : List Char → List Char
  | [] => []
  | c :: rest => if c = '\n' then stripLF rest else c :: stripLF rest

/-- `s.replace('\r', '<br>')` on the character list (line 162). -/
def replCR : List Char → List Char
  | [] => []
  | c :: rest =>
    if c = '\r' then '<' :: 'b' :: 'r' :: '>' :: replCR rest
    else c :: replCR rest

/-- The description cleanup of lines 161-162: strip line feeds, then replace
carriage returns by the `<br>` marker. -/
def normalizeDescription (s : String) : String := ⟨replCR (stripLF s.data)⟩

/-- `t.encode("ascii", "ignore").decode()` (lines 69-73): drop every
character outside the ASCII range, keep the rest. -/
def asciiIgnore (s : String) : String := ⟨s.data.filter (fun c => c.toNat < 128)⟩

/-- Modelled from the spec: "control characters stripped" — remove the
control characters (code points below 32, and delete).  This follows the
spec's words and exists only to be compared with `asciiIgnore`, the
embedding of the source expression. -/
def stripControl (s : String) : String :=
  ⟨s.data.filter (fun c => ¬ (c.toNat < 32 ∨ c.toNat = 127))⟩

/-! ### Base64 (`base64.b64encode` on line 158, and its inverse)

The label fallback is `base64.b64encode(data['title'].encode()).decode()`:
UTF-8 encode the title, base64 encode the bytes, read the result back as
text.  Bytes are embedded as natural numbers below 256. -/

/-- The standard base64 alphabet as a function from a 6-bit index to its
character: `A`-`Z`, `a`-`z`, `0`-`9`, `+`, `/`. -/
def encodeChar (i : Nat) : Char :=
  if i < 26 then Char.ofNat (65 + i)
  else if i < 52 then Char.ofNat (97 + (i - 26))
  else if i < 62 then Char.ofNat (48 + (i - 52))
  else if i = 62 then '+' else '/'

/-- Inverse of the base64 alphabet: maps an alphabet character back to its
6-bit index. -/
def decodeChar (c : Char) : Nat :=
  let n := c.toNat
  if 65 ≤ n ∧ n ≤ 90 then n - 65
  else if 97 ≤ n ∧ n ≤ 122 then n - 71
  else if 48 ≤ n ∧ n ≤ 57 then n + 4
  else if n = 43 then 62 else 63

/-- `base64.b64encode`: three bytes become four alphabet characters; a final
group of one or two bytes is padded with `=`. -/
def b64encode : List Nat → List Char
  | [] => []
  | [a] => [encodeChar (a / 4), encodeChar (a % 4 * 16), '=', '=']
  | [a, b] =>
    [encodeChar (a / 4), encodeChar (a % 4 * 16 + b / 16),
     encodeChar (b % 16 * 4), '=']
  | a :: b :: c :: rest =>
    encodeChar (a / 4) :: encodeChar (a % 4 * 16 + b / 16) ::
    encodeChar (b % 16 * 4 + c / 64) :: encodeChar (c % 64) :: b64encode rest

/-- Modelled from the spec: "decoding the label recovers the original title
bytes".  Standard base64 decoding (`base64.b64decode`) of a well-formed
encoding: four characters yield three bytes, with `=` padding allowed only
in the final quartet. -/
def b64decode : List Char → Option (List Nat)
  | [] => some []
  | c1 :: c2 :: c3 :: c4 :: rest =>
    if c3 = '=' then
      if c4 = '=' ∧ rest = [] then
        some [decodeChar c1 * 4 + decodeChar c2 / 16]
      else none
    else if c4 = '=' then
      if rest = [] then
        some [decodeChar c1 * 4 + decodeChar c2 / 16,
              decodeChar c2 % 16 * 16 + decodeChar c3 / 4]
      else none
    else
      match b64decode rest with
      | some r =>
        some ((decodeChar c1 * 4 + decodeChar c2 / 16) ::
              (decodeChar c2 % 16 * 16 + decodeChar c3 / 4) ::
              (decodeChar c3 % 4 * 64 + decodeChar c4) :: r)
      | none => none
  | _ => none

/-- `str.encode()` for one character: its UTF-8 byte sequence. -/
def utf8Bytes (c : Char) : List Nat :=
  let n := c.toNat
  if n < 128 then [n]
  else if n < 2048 then [192 + n / 64, 128 + n % 64]
  else if n < 65536 then [224 + n / 4096, 128 + n / 64 % 64, 128 + n % 64]
  else [240 + n / 262144, 128 + n / 4096 % 64, 128 + n / 64 % 64, 128 + n % 64]

/-- `data['title'].encode()` (line 158): the UTF-8 bytes of the title. -/
def titleBytes (s : String) : List Nat := s.data.flatMap utf8Bytes

/-- The derived label of line 158:
`base64.b64encode(title.encode()).decode()`. -/
def labelOfTitle (t : String) : String := ⟨b64encode (titleBytes t)⟩

/-! ### Metadata Fetcher (`get_metadata_from_hs`, lines 31-85)

The HTTP transport and the XML parser are not re-implemented; a fetch is an
oracle producing an `Option HsResponse`: `none` is a raised transport error,
and a response carries the status code and, when the document parsed and had
the expected shape, the extracted element texts.  Documents where a lookup
returns no element (so `.text`/`.find` raises inside the `try`) are the
`parsed = none` case. -/

/-- One `dc:creator` entry of the response: the optional
`hsterms:name`/`organization`/`email` texts and the optional
`hsterms:description` relative profile path. -/
structure Creator : Type where
  name : Option String
  organization : Option String
  email : Option String
  descriptionPath : Option String

/-- The parsed science-metadata document: title and abstract texts and the
creator and subject-keyword lists. -/
structure SciMeta : Type where
  title : Option String
  abstractText : Option String
  creators : List Creator
  subjects : List String

/-- A response of `requests.get`: its status code, and the parsed document
when `etree.fromstring` and the element lookups succeed. -/
structure HsResponse : Type where
  status : Nat
  parsed : Option SciMeta

/-- The author dictionary built for one creator (lines 50-63): the three
optional attributes in order, then the profile `url` when the relative path
is present. -/
def creatorVal (c : Creator) : Val :=
  Val.vmap
    ((match c.name with
      | some s => [("name", Val.vstr s)]
      | none => []) ++
     (match c.organization with
      | some s => [("organization", Val.vstr s)]
      | none => []) ++
     (match c.email with
      | some s => [("email", Val.vstr s)]
      | none => []) ++
     (match c.descriptionPath with
      | some u => [("url", Val.vstr ("https://hydroshare.org" ++ u))]
      | none => []))

/-- Diagnostic printed on line 82, in the `except` handler of the fetcher
(shortened to its fixed prefix; the resource id interpolated into the
message does not matter to any claim).  Every `None` return of the fetcher
goes through that handler, so the caller emits this warning exactly when the
fetch result is `none`. -/
def hsFailMsg : String := "Failed to get hydroshare data"

/-- `get_metadata_from_hs` (lines 31-85): `None` unless the request
succeeded with status 200 and the document parsed with a title and an
abstract; otherwise the record with `authors`, `title`, the
ASCII-filtered `description`, and `keywords` only when at least one
subject is present (lines 76-79). -/
def getMetadataFromHs (resp : Option HsResponse) : Option Record :=
  match resp with
  | none => none
  | some r =>
    if r.status ≠ 200 then none
    else
      match r.parsed with
      | none => none
      | some m =>
        match m.title, m.abstractText with
        | some t, some a =>
          let base : Record :=
            [("authors", Val.vlist (m.creators.map creatorVal)),
             ("title", Val.vstr t),
             ("description", Val.vstr (asciiIgnore a))]
          some (if m.subjects.length > 0 then
                  base ++ [("keywords", Val.vlist (m.subjects.map Val.vstr))]
                else base)
        | _, _ => none

/-! ### Example Builder (`build_example_page`, lines 123-176) -/

/-- The observable side effects of one run, in program order. -/
inductive Effect : Type where
  /-- the `print(f"processing: {subdir}")` of line 196 -/
  | processing (subdir : Path)
  /-- a diagnostic or warning `print` (lines 105, 141) -/
  | warn (msg : String)
  /-- `write_yaml_cache(subdir, data)` (lines 111-120, 167) -/
  | cacheWrite (outdir : Path) (filename : String) (d : Record)
  /-- `render_page(template, data, outpath)` (lines 21-28) -/
  | renderPage (template : String) (d : Record) (outpath : Path)
  /-- `shutil.copyfile` (line 100): source `(subdir, relative path)` and
  destination name under the static directory -/
  | copyFile (src : Path × String) (dst : String)

/-- `yaml_data.get("hydroshare", {}).get("id")` plus the `is not None` test
(lines 134-137): `none` when the key chain is absent or the stored id is
`null`; an uncaught `AttributeError` when the `hydroshare` value is not a
dictionary (including an explicit `null`). -/
def getHsid (yaml : Record) : Except String (Option Val) :=
  match aget yaml "hydroshare" with
  | none => .ok none
  | some (Val.vmap m) =>
    .ok (match aget m "id" with
         | some Val.vnull => none
         | some v => some v
         | none => none)
  | some _ => .error "AttributeError: get"

/-- Lines 152-158, the `except` handler: the label falls back to the base64
encoding of the title; a missing title raises an uncaught `KeyError`, a
non-string title an uncaught `AttributeError` (no `.encode`). -/
def labelFromTitle (data : Record) : Except String Record :=
  match aget data "title" with
  | some (Val.vstr t) => .ok (aset data "label" (Val.vstr (labelOfTitle t)))
  | some _ => .error "AttributeError: encode"
  | none => .error "KeyError: title"

/-- Lines 151-158: keep any present `label` key (even a `null` one); else
try `data['hydroshare']['id']` — every exception there (missing key, value
not subscriptable by a string) is caught and falls back to the title
encoding. -/
def labelStep (data : Record) : Except String Record :=
  if (aget data "label").isSome then .ok data
  else
    match aget data "hydroshare" with
    | some (Val.vmap m) =>
      match aget m "id" with
      | some v => .ok (aset data "label" v)
      | none => labelFromTitle data
    | _ => labelFromTitle data

/-- Lines 161-162: `data['description'].replace('\n','').replace('\r','<br>')`.
A missing key raises an uncaught `KeyError`; a non-string value an uncaught
`AttributeError` (no `.replace`). -/
def descriptionStep (data : Record) : Except String Record :=
  match aget data "description" with
  | some (Val.vstr s) =>
    .ok (aset data "description" (Val.vstr (normalizeDescription s)))
  | some _ => .error "AttributeError: replace"
  | none => .error "KeyError: description"

/-- Lines 151-176 after the merge: derive the label, clean the description,
write the cache file beside the configuration and render the landing page
from the fixed template. -/
def buildRest (subdir : Path) (data0 : Record) :
    Except String (Option Record × List Effect) := do
  let data1 ← labelStep data0
  let data2 ← descriptionStep data1
  .ok (some data2,
       [Effect.cacheWrite subdir ".cache.yaml" data2,
        Effect.renderPage "landingpage.rst" data2 (subdir ++ ["index.rst"])])

/-- Diagnostic printed on line 141. -/
def hsSkipMsg : String := "something happened when collecting hs metadata"

/-- `build_example_page` (lines 123-176) on the already-parsed configuration
`yaml`: fetch remote metadata when an id is configured (skipping the example
with only a diagnostic when the fetch fails), merge with the local
configuration (local keys win), then `buildRest`.  `net` is the network
oracle behind `requests.get`. -/
def buildExamplePage (net : Val → Option HsResponse) (subdir : Path)
    (yaml : Record) : Except String (Option Record × List Effect) := do
  let hsidO ← getHsid yaml
  match hsidO with
  | some hsid =>
    match getMetadataFromHs (net hsid) with
    | none => .ok (none, [Effect.warn hsFailMsg, Effect.warn hsSkipMsg])
    | some hsdata => buildRest subdir (rupdate hsdata yaml)
  | none => buildRest subdir (rupdate [] yaml)

/-! ### Static Asset Relocator (`copy_static`, lines 88-108) -/

/-- `str(v)` as used by the f-string of line 99.  For the container values
the exact Python repr text is abstracted to a fixed tag: no claim depends on
the destination name derived from a non-string label. -/
def pyStr : Val → String
  | Val.vnull => "None"
  | Val.vstr s => s
  | Val.vnat n => toString n
  | Val.vmap _ => "<dict>"
  | Val.vlist _ => "<list>"

/-- The warning printed on line 105. -/
def thumbWarnMsg : String := "WARNING: Missing thumbnail, setting to default image"

/-- The default asset name of line 106. -/
def defaultThumbnail : String := "missing-thumbnail.png"

/-- Lines 104-108: warn and fall back to the default asset name; no file is
copied. -/
def defaultThumb (data : Record) : Except String (Record × List Effect) :=
  .ok (aset data "thumbnail" (Val.vstr defaultThumbnail),
       [Effect.warn thumbWarnMsg])

/-- `copy_static` (lines 88-108).  `exq subdir rel` is the filesystem oracle
for `os.path.exists(os.path.abspath(os.path.join(subdir, rel)))`.  When a
`thumbnail` key is present with a string path that exists, the file is
copied to `thumbnail-{label}` (an absent `label` key would raise an uncaught
`KeyError` in the f-string) and the field is rewritten; otherwise the
default is substituted.  A non-string `thumbnail` value raises an uncaught
`TypeError` in `os.path.join`. -/
def copyStatic (exq : Path → String → Bool) (subdir : Path) (data : Record) :
    Except String (Record × List Effect) :=
  match aget data "thumbnail" with
  | some (Val.vstr p) =>
    if exq subdir p then
      match aget data "label" with
      | some lv =>
        .ok (aset data "thumbnail" (Val.vstr ("thumbnail-" ++ pyStr lv)),
             [Effect.copyFile (subdir, p) ("thumbnail-" ++ pyStr lv)])
      | none => .error "KeyError: label"
    else defaultThumb data
  | some _ => .error "TypeError: join"
  | none => defaultThumb data

/-! ### Aggregator and traversal loop (`__main__`, lines 189-221) -/

/-- The in-memory aggregation structure `subgalleries`: sub-gallery path →
category name → ordered records. -/
abbrev SubIdx := List (Path × List (String × List Record))

/-- Generic lookup for the nested aggregation dictionaries. -/
def pget {β : Type} : List (Path × β) → Path → Option β
  | [], _ => none
  | (k, v) :: rest, k2 => if k = k2 then some v else pget rest k2

/-- Lines 219-221 at the category level: create the empty list on first
encounter, then append the record at the end. -/
def catAppend (cats : List (String × List Record)) (cat : String)
    (d : Record) : List (String × List Record) :=
  match cats with
  | [] => [(cat, [d])]
  | (c, ds) :: rest =>
    if c = cat then (c, ds ++ [d]) :: rest else (c, ds) :: catAppend rest cat d

/-- Lines 217-221: create the empty sub-gallery dictionary on first
encounter, then file the record under its category. -/
def aggAppend (sg : SubIdx) (sp : Path) (cat : String) (d : Record) : SubIdx :=
  match sg with
  | [] => [(sp, catAppend [] cat d)]
  | (p, cats) :: rest =>
    if p = sp then (p, catAppend cats cat d) :: rest
    else (p, cats) :: aggAppend rest sp cat d

/-- The ordered record sequence filed under a (sub-gallery, category) pair,
empty when the grouping does not exist yet. -/
def sgGet (sg : SubIdx) (sp : Path) (cat : String) : List Record :=
  match pget sg sp with
  | none => []
  | some cats => (aget cats cat).getD []

/-- One iteration of the traversal loop (lines 199-221): build the example;
on a skip (`data is None`) leave the aggregation unchanged; on success
relocate the thumbnail and file the record under
`os.path.dirname(os.path.dirname(subdir))` and
`os.path.basename(os.path.dirname(subdir))`. -/
def processOne (net : Val → Option HsResponse) (exq : Path → String → Bool)
    (subdir : Path) (yaml : Record) (sg : SubIdx) :
    Except String (SubIdx × List Effect) :=
  match buildExamplePage net subdir yaml with
  | .error e => .error e
  | .ok (none, effs) => .ok (sg, effs)
  | .ok (some d, effs) =>
    match copyStatic exq subdir d with
    | .error e => .error e
    | .ok (d2, effs2) =>
      .ok (aggAppend sg (pathDirname (pathDirname subdir))
             (pathBasename (pathDirname subdir)) d2,
           effs ++ effs2)

/-- The traversal loop of lines 194-221 over the discovered configuration
files, in `os.walk` order: each directory holding a `conf.yaml` is announced
(line 196) and processed; an uncaught exception aborts the whole run. -/
def runGallery (net : Val → Option HsResponse) (exq : Path → String → Bool) :
    List (Path × Record) → SubIdx → Except String (SubIdx × List Effect)
  | [], sg => .ok (sg, [])
  | (subdir, yaml) :: rest, sg =>
    match processOne net exq subdir yaml sg with
    | .error e => .error e
    | .ok (sg2, effs) =>
      match runGallery net exq rest sg2 with
      | .error e => .error e
      | .ok (sg3, effs3) =>
        .ok (sg3, (Effect.processing subdir :: effs) ++ effs3)

/-! ### Dictionary lemmas -/

theorem aget_aset_self {β : Type} (m : List (String × β)) (k : String) (v : β) :
    aget (aset m k v) k = some v := by
  induction m with
  | nil => simp [aget, aset]
  | cons kv rest ih =>
    obtain ⟨k2, v2⟩ := kv
    by_cases h : k2 = k
    · simp [aget, aset, h]
    · simp [aget, aset, h, ih]

theorem aget_aset_ne {β : Type} (m : List (String × β)) (k k2 : String) (v : β)
    (h : k2 ≠ k) : aget (aset m k v) k2 = aget m k2 := by
  have hk : k ≠ k2 := fun hh => h hh.symm
  induction m with
  | nil => simp [aget, aset, hk]
  | cons kv rest ih =>
    obtain ⟨k3, v3⟩ := kv
    by_cases h3 : k3 = k
    · subst h3
      simp [aget, aset, hk]
    · simp [aget, aset, h3, ih]

theorem aget_rupdate_not_mem (base ov : Record) (k : String)
    (h : ∀ v, (k, v) ∉ ov) : aget (rupdate base ov) k = aget base k := by
  induction ov generalizing base with
  | nil => simp [rupdate]
  | cons kv rest ih =>
    obtain ⟨k2, v2⟩ := kv
    have hk2 : k2 ≠ k := by
      intro hh
      exact h v2 (by simp [hh])
    have hrest : ∀ v, (k, v) ∉ rest := by
      intro v hv
      exact h v (by simp [hv])
    have : rupdate base ((k2, v2) :: rest) = rupdate (aset base k2 v2) rest := by
      simp [rupdate, List.foldl_cons]
    rw [this, ih _ hrest, aget_aset_ne _ _ _ _ (fun hh => hk2 hh.symm)]

theorem aget_rupdate_of_mem (base ov : Record) (k : String) (v : Val)
    (hnd : (ov.map Prod.fst).Nodup) (h : aget ov k = some v) :
    aget (rupdate base ov) k = some v := by
  induction ov generalizing base with
  | nil => simp [aget] at h
  | cons kv rest ih =>
    obtain ⟨k2, v2⟩ := kv
    have hstep : rupdate base ((k2, v2) :: rest) = rupdate (aset base k2 v2) rest := by
      simp [rupdate, List.foldl_cons]
    simp only [List.map_cons, List.nodup_cons] at hnd
    by_cases hk : k2 = k
    · subst hk
      simp only [aget, if_pos rfl] at h
      obtain rfl : v2 = v := by injection h
      have hnm : ∀ w, (k2, w) ∉ rest := by
        intro w hw
        exact hnd.1 (by exact List.mem_map.mpr ⟨(k2, w), hw, rfl⟩)
      rw [hstep, aget_rupdate_not_mem _ _ _ hnm, aget_aset_self]
    · simp only [aget, if_neg hk] at h
      rw [hstep, ih _ hnd.2 h]

theorem aget_rupdate_of_none (base ov : Record) (k : String)
    (h : aget ov k = none) : aget (rupdate base ov) k = aget base k := by
  induction ov generalizing base with
  | nil => simp [rupdate]
  | cons kv rest ih =>
    obtain ⟨k2, v2⟩ := kv
    have hstep : rupdate base ((k2, v2) :: rest) = rupdate (aset base k2 v2) rest := by
      simp [rupdate, List.foldl_cons]
    by_cases hk : k2 = k
    · simp [aget, hk] at h
    · simp only [aget, if_neg hk] at h
      rw [hstep, ih _ h, aget_aset_ne _ _ _ _ (fun hh => hk hh.symm)]

/-- C4: in the merge of line 148-149 (`data = hsdata or {};
data.update(yaml_data)`) every key present in the local configuration
overrides the fetched value for that key, and keys present only in the
fetched metadata are retained.  The local configuration is a parsed YAML
dictionary, so its keys are unique. -/
theorem merge_local_overrides_remote (hsdata yaml : Record) (k : String)
    (hnd : (yaml.map Prod.fst).Nodup) :
    (∀ v, aget yaml k = some v → aget (rupdate hsdata yaml) k = some v) ∧
    (aget yaml k = none → aget (rupdate hsdata yaml) k = aget hsdata k) := by
  constructor
  · intro v hv
    exact aget_rupdate_of_mem hsdata yaml k v hnd hv
  · intro hv
    exact aget_rupdate_of_none hsdata yaml k hv

/-- Witness for C4 at a concrete merge: the overlapping key `title` takes
the local value and the remote-only key `authors` is retained. -/
theorem merge_local_overrides_remote_witness :
    aget (rupdate [("title", Val.vstr "remote"), ("authors", Val.vlist [])]
            [("title", Val.vstr "local")]) "title" = some (Val.vstr "local") ∧
    aget (rupdate [("title", Val.vstr "remote"), ("authors", Val.vlist [])]
            [("title", Val.vstr "local")]) "authors" = some (Val.vlist []) :=
  ⟨(merge_local_overrides_remote _ _ "title" (by decide)).1 _ rfl,
   (merge_local_overrides_remote _ _ "authors" (by decide)).2 rfl⟩

/-! ### Normalization lemmas (for C6) -/

theorem lf_not_mem_stripLF (l : List Char) : '\n' ∉ stripLF l := by
  induction l with
  | nil => simp [stripLF]
  | cons c rest ih =>
    by_cases h : c = '\n'
    · simpa [stripLF, h] using ih
    · simp [stripLF, h, ih]
      exact fun hh => h hh.symm

theorem cr_not_mem_replCR (l : List Char) : '\r' ∉ replCR l := by
  induction l with
  | nil => simp [replCR]
  | cons c rest ih =>
    by_cases h : c = '\r'
    · simp [replCR, h, ih]
    · simp [replCR, h, ih]
      exact fun hh => h hh.symm

theorem lf_not_mem_replCR (l : List Char) (h : '\n' ∉ l) : '\n' ∉ replCR l := by
  induction l with
  | nil => simp [replCR]
  | cons c rest ih =>
    have hc : c ≠ '\n' := fun hh => h (by simp [hh])
    have hrest : '\n' ∉ rest := fun hh => h (by simp [hh])
    by_cases h2 : c = '\r'
    · simp [replCR, h2, ih hrest]
    · simp [replCR, h2, ih hrest]
      exact fun hh => hc hh.symm

theorem stripLF_of_not_mem (l : List Char) (h : '\n' ∉ l) : stripLF l = l := by
  induction l with
  | nil => rfl
  | cons c rest ih =>
    have hc : c ≠ '\n' := fun hh => h (by simp [hh])
    have hrest : '\n' ∉ rest := fun hh => h (by simp [hh])
    simp [stripLF, hc, ih hrest]

theorem replCR_of_not_mem (l : List Char) (h : '\r' ∉ l) : replCR l = l := by
  induction l with
  | nil => rfl
  | cons c rest ih =>
    have hc : c ≠ '\r' := fun hh => h (by simp [hh])
    have hrest : '\r' ∉ rest := fun hh => h (by simp [hh])
    simp [replCR, hc, ih hrest]

/-- C6: the description cleanup of lines 161-162 is idempotent, and its
result contains no line feed and no carriage return. -/
theorem normalizeDescription_idem (s : String) :
    normalizeDescription (normalizeDescription s) = normalizeDescription s ∧
    '\n' ∉ (normalizeDescription s).data ∧
    '\r' ∉ (normalizeDescription s).data := by
  have hlf : '\n' ∉ replCR (stripLF s.data) :=
    lf_not_mem_replCR _ (lf_not_mem_stripLF s.data)
  have hcr : '\r' ∉ replCR (stripLF s.data) := cr_not_mem_replCR (stripLF s.data)
  refine ⟨?_, hlf, hcr⟩
  show (⟨replCR (stripLF (replCR (stripLF s.data)))⟩ : String) = ⟨replCR (stripLF s.data)⟩
  rw [stripLF_of_not_mem _ hlf, replCR_of_not_mem _ hcr]

/-! ### Base64 lemmas (for C5) -/

theorem decodeChar_encodeChar_fin :
    ∀ i : Fin 64, decodeChar (encodeChar i.val) = i.val := by decide

theorem encodeChar_ne_pad_fin : ∀ i : Fin 64, encodeChar i.val ≠ '=' := by decide

theorem decodeChar_encodeChar (i : Nat) (h : i < 64) :
    decodeChar (encodeChar i) = i :=
  decodeChar_encodeChar_fin ⟨i, h⟩

theorem encodeChar_ne_pad (i : Nat) (h : i < 64) : encodeChar i ≠ '=' :=
  encodeChar_ne_pad_fin ⟨i, h⟩

/-- Base64 decoding inverts base64 encoding on any byte sequence. -/
theorem b64decode_b64encode (bs : List Nat) (h : ∀ b ∈ bs, b < 256) :
    b64decode (b64encode bs) = some bs := by
  induction bs using b64encode.induct with
  | case1 => rfl
  | case2 a =>
    have ha : a < 256 := h a (by simp)
    have h1 : a / 4 < 64 := by omega
    have h2 : a % 4 * 16 < 64 := by omega
    simp [b64encode, b64decode,
      decodeChar_encodeChar _ h1, decodeChar_encodeChar _ h2]
    omega
  | case3 a b =>
    have ha : a < 256 := h a (by simp)
    have hb : b < 256 := h b (by simp)
    have h1 : a / 4 < 64 := by omega
    have h2 : a % 4 * 16 + b / 16 < 64 := by omega
    have h3 : b % 16 * 4 < 64 := by omega
    simp [b64encode, b64decode, encodeChar_ne_pad _ h3,
      decodeChar_encodeChar _ h1, decodeChar_encodeChar _ h2,
      decodeChar_encodeChar _ h3]
    constructor
    · omega
    · omega
  | case4 a b c rest ih =>
    have ha : a < 256 := h a (by simp)
    have hb : b < 256 := h b (by simp)
    have hc : c < 256 := h c (by simp)
    have hrest : ∀ x ∈ rest, x < 256 := fun x hx => h x (by simp [hx])
    have h1 : a / 4 < 64 := by omega
    have h2 : a % 4 * 16 + b / 16 < 64 := by omega
    have h3 : b % 16 * 4 + c / 64 < 64 := by omega
    have h4 : c % 64 < 64 := by omega
    simp [b64encode, b64decode, encodeChar_ne_pad _ h3,
      encodeChar_ne_pad _ h4, ih hrest,
      decodeChar_encodeChar _ h1, decodeChar_encodeChar _ h2,
      decodeChar_encodeChar _ h3, decodeChar_encodeChar _ h4]
    refine ⟨by omega, by omega, by omega⟩

/-- Every byte produced by the UTF-8 encoding is below 256 (code points are
below 0x110000). -/
theorem utf8Bytes_lt (c : Char) : ∀ b ∈ utf8Bytes c, b < 256 := by
  have hval : c.toNat < 1114112 := by
    have := c.valid
    rcases this with h1 | ⟨_, h2⟩
    · have : c.toNat < 55296 := h1
      omega
    · exact h2
  intro b hb
  simp only [utf8Bytes] at hb
  split at hb
  · simp at hb
    omega
  · split at hb
    · simp at hb
      rcases hb with hb | hb <;> omega
    · split at hb
      · simp at hb
        rcases hb with hb | hb | hb <;> omega
      · simp at hb
        rcases hb with hb | hb | hb | hb <;> omega

theorem titleBytes_lt (s : String) : ∀ b ∈ titleBytes s, b < 256 := by
  intro b hb
  unfold titleBytes at hb
  rw [List.mem_flatMap] at hb
  obtain ⟨c, _, hbc⟩ := hb
  exact utf8Bytes_lt c b hbc

/-- C5 (amended): when the merged record has no explicit `label` key and no
`hydroshare.id` entry at all — `hydroshare` absent, or a dictionary without
an `id` key, so there is no remote resource identifier and nothing for line
155 to grab — lines 157-158 derive the label as the base64 encoding of the
title: a function of the title alone, hence deterministic, and base64
decoding of that label recovers the title's UTF-8 bytes.  When the
configuration instead carries `hydroshare: {id: null}` (also "no remote id"
for the fetch logic of line 134) line 155 copies the null id into the label,
which is not reversible: see the refutation below. -/
theorem label_derivation_reversible (data : Record) (t : String)
    (hl : aget data "label" = none)
    (hh : ∀ m, aget data "hydroshare" = some (Val.vmap m) → aget m "id" = none)
    (ht : aget data "title" = some (Val.vstr t)) :
    labelStep data = .ok (aset data "label" (Val.vstr (labelOfTitle t))) ∧
    b64decode (labelOfTitle t).data = some (titleBytes t) := by
  constructor
  · cases hhy : aget data "hydroshare" with
    | none => simp [labelStep, hl, hhy, labelFromTitle, ht]
    | some v =>
      cases v with
      | vnull => simp [labelStep, hl, hhy, labelFromTitle, ht]
      | vstr s => simp [labelStep, hl, hhy, labelFromTitle, ht]
      | vnat n => simp [labelStep, hl, hhy, labelFromTitle, ht]
      | vmap m => simp [labelStep, hl, hhy, hh m hhy, labelFromTitle, ht]
      | vlist l => simp [labelStep, hl, hhy, labelFromTitle, ht]
  · exact b64decode_b64encode _ (titleBytes_lt t)

/-- Witness for C5 (amended) at the configuration
`{title: Demo, hydroshare: {}}`: an empty `hydroshare` dictionary carries no
remote resource identifier and the label still falls back to the title
encoding. -/
theorem label_derivation_reversible_witness :
    labelStep [("title", Val.vstr "Demo"), ("hydroshare", Val.vmap [])] =
      .ok (aset [("title", Val.vstr "Demo"), ("hydroshare", Val.vmap [])]
             "label" (Val.vstr (labelOfTitle "Demo"))) ∧
    b64decode (labelOfTitle "Demo").data = some (titleBytes "Demo") :=
  label_derivation_reversible _ "Demo" rfl
    (by
      intro m hm
      injection hm with h2
      injection h2 with h3
      rw [← h3]
      rfl)
    rfl

/-- C2 (amended): on a successfully fetched and parsed response, the
`description` of the returned record is the abstract with the non-ASCII
characters removed (`encode("ascii", "ignore")`, lines 69-73) — not with the
control characters removed. -/
theorem description_is_ascii_filtered (r : HsResponse) (m : SciMeta)
    (t a : String) (hs : r.status = 200) (hp : r.parsed = some m)
    (ht : m.title = some t) (ha : m.abstractText = some a) :
    (getMetadataFromHs (some r)).bind (fun d => aget d "description") =
      some (Val.vstr (asciiIgnore a)) := by
  by_cases hk : m.subjects.length > 0 <;>
    simp [getMetadataFromHs, hs, hp, ht, ha, hk, aget]

/-- A concrete successful response whose abstract holds a non-ASCII
character (used by the C2 witness). -/
def respEllipsis : HsResponse where
  status := 200
  parsed := some
    { title := some "T", abstractText := some "ok…",
      creators := [], subjects := [] }

/-- Witness for C2 (amended) on `respEllipsis`. -/
theorem description_is_ascii_filtered_witness :
    (getMetadataFromHs (some respEllipsis)).bind
      (fun d => aget d "description") = some (Val.vstr (asciiIgnore "ok…")) :=
  description_is_ascii_filtered _ _ "T" "ok…" rfl rfl rfl rfl

/-- A concrete successful response whose abstract holds the control
character `'\n'` (used by the C2 refutation). -/
def respCtl : HsResponse where
  status := 200
  parsed := some
    { title := some "T", abstractText := some "a\nb",
      creators := [], subjects := [] }

/-- Refutation of C2 as stated: for the successfully fetched response
`respCtl`, the record's description keeps the control character `'\n'` (the
source filters non-ASCII characters, not control characters), so it differs
from the abstract with control characters stripped. -/
theorem description_not_control_stripped :
    (getMetadataFromHs (some respCtl)).bind
      (fun d => aget d "description") = some (Val.vstr "a\nb") ∧
    stripControl "a\nb" ≠ "a\nb" :=
  ⟨rfl, by decide⟩

/-! ### C3: a failed fetch skips the example -/

theorem getMetadataFromHs_of_fail (r : HsResponse)
    (hfail : r.status ≠ 200 ∨ r.parsed = none) :
    getMetadataFromHs (some r) = none := by
  unfold getMetadataFromHs
  by_cases hst : r.status = 200
  · rcases hfail with hf | hf
    · exact absurd hst hf
    · simp [hst, hf]
  · simp [hst]

/-- C3: when the configuration carries a remote resource id and the fetch
fails (non-success status or unparsable response), the example is skipped
entirely: the builder returns `None` having produced only the two
diagnostics — no cache write and no page render — the record is not
aggregated, and the run equals the run over the remaining examples with only
those diagnostics prepended. -/
theorem fetch_failure_skips_example (net : Val → Option HsResponse)
    (exq : Path → String → Bool) (subdir : Path) (yaml : Record)
    (rest : List (Path × Record)) (sg : SubIdx) (hsid : Val) (r : HsResponse)
    (hid : getHsid yaml = .ok (some hsid)) (hr : net hsid = some r)
    (hfail : r.status ≠ 200 ∨ r.parsed = none) :
    buildExamplePage net subdir yaml =
      .ok (none, [Effect.warn hsFailMsg, Effect.warn hsSkipMsg]) ∧
    runGallery net exq ((subdir, yaml) :: rest) sg =
      (runGallery net exq rest sg).map
        (fun p => (p.1, Effect.processing subdir :: Effect.warn hsFailMsg ::
                        Effect.warn hsSkipMsg :: p.2)) := by
  have hnone : getMetadataFromHs (net hsid) = none := by
    rw [hr]
    exact getMetadataFromHs_of_fail r hfail
  have hbuild : buildExamplePage net subdir yaml =
      .ok (none, [Effect.warn hsFailMsg, Effect.warn hsSkipMsg]) := by
    simp [buildExamplePage, hid, hnone, Bind.bind, Except.bind]
  refine ⟨hbuild, ?_⟩
  have hproc : processOne net exq subdir yaml sg =
      .ok (sg, [Effect.warn hsFailMsg, Effect.warn hsSkipMsg]) := by
    simp [processOne, hbuild]
  cases hrest : runGallery net exq rest sg with
  | error e => simp [runGallery, hproc, hrest, Except.map]
  | ok p => simp [runGallery, hproc, hrest, Except.map]

/-- A network oracle that answers every request with HTTP 404. -/
def net404 : Val → Option HsResponse := fun _ => some { status := 404, parsed := none }

/-- A filesystem oracle on which no thumbnail file exists. -/
def noFs : Path → String → Bool := fun _ _ => false

/-- A configuration with a remote resource id (used by the C3 witness). -/
def yamlWithId : Record :=
  [("title", Val.vstr "T"),
   ("hydroshare", Val.vmap [("id", Val.vstr "abc123")]),
   ("description", Val.vstr "D")]

/-- Witness for C3: the 404 fetch skips the example and the run continues
with the remaining examples. -/
theorem fetch_failure_skips_example_witness :
    buildExamplePage net404 ["g", "s", "c", "e"] yamlWithId =
      .ok (none, [Effect.warn hsFailMsg, Effect.warn hsSkipMsg]) ∧
    runGallery net404 noFs ((["g", "s", "c", "e"], yamlWithId) :: []) [] =
      (runGallery net404 noFs [] []).map
        (fun p => (p.1, Effect.processing ["g", "s", "c", "e"] ::
                        Effect.warn hsFailMsg :: Effect.warn hsSkipMsg :: p.2)) :=
  fetch_failure_skips_example net404 noFs _ _ [] [] (Val.vstr "abc123")
    { status := 404, parsed := none } rfl rfl (Or.inl (by decide))

/-! ### C1: a missing required field aborts the whole run -/

/-- C1 (amended): a configuration with no remote id whose `description` is
missing (with a `title` for the label fallback) makes `build_example_page`
raise a `KeyError` at line 161; the traversal loop of lines 194-221 has no
handler around the builder, so the error is NOT caught per example — it
aborts the entire run, and no later example is processed. -/
theorem missing_description_aborts_run (net : Val → Option HsResponse)
    (exq : Path → String → Bool) (subdir : Path) (yaml : Record)
    (rest : List (Path × Record)) (sg : SubIdx) (t : String)
    (hnd : (yaml.map Prod.fst).Nodup)
    (hh : aget yaml "hydroshare" = none)
    (hl : aget yaml "label" = none)
    (ht : aget yaml "title" = some (Val.vstr t))
    (hd : aget yaml "description" = none) :
    buildExamplePage net subdir yaml = .error "KeyError: description" ∧
    runGallery net exq ((subdir, yaml) :: rest) sg =
      .error "KeyError: description" := by
  have hh0 : aget (rupdate [] yaml) "hydroshare" = none := by
    rw [aget_rupdate_of_none _ _ _ hh]
    rfl
  have hl0 : aget (rupdate [] yaml) "label" = none := by
    rw [aget_rupdate_of_none _ _ _ hl]
    rfl
  have ht0 : aget (rupdate [] yaml) "title" = some (Val.vstr t) :=
    aget_rupdate_of_mem _ _ _ _ hnd ht
  have hd0 : aget (rupdate [] yaml) "description" = none := by
    rw [aget_rupdate_of_none _ _ _ hd]
    rfl
  have hlab : labelStep (rupdate [] yaml) =
      .ok (aset (rupdate [] yaml) "label" (Val.vstr (labelOfTitle t))) := by
    simp [labelStep, hl0, hh0, labelFromTitle, ht0]
  have hdesc : descriptionStep
      (aset (rupdate [] yaml) "label" (Val.vstr (labelOfTitle t))) =
      .error "KeyError: description" := by
    have : aget (aset (rupdate [] yaml) "label" (Val.vstr (labelOfTitle t)))
        "description" = none := by
      rw [aget_aset_ne _ _ _ _ (by decide)]
      exact hd0
    simp [descriptionStep, this]
  have hbuild : buildExamplePage net subdir yaml =
      .error "KeyError: description" := by
    simp [buildExamplePage, getHsid, hh, buildRest, hlab, hdesc,
      Bind.bind, Except.bind]
  refine ⟨hbuild, ?_⟩
  simp [runGallery, processOne, hbuild]

/-- A network oracle that is never consulted. -/
def noNet : Val → Option HsResponse := fun _ => none

/-- Refutation of C1 as stated: a run over two examples where the first
configuration is missing `description` aborts with the uncaught `KeyError`
— the second (well-formed) example is never processed, instead of the first
being skipped and the run continuing. -/
theorem missing_description_aborts_run_cex :
    runGallery noNet noFs
      [(["g", "s", "c", "e1"], [("title", Val.vstr "A")]),
       (["g", "s", "c", "e2"],
        [("title", Val.vstr "B"), ("description", Val.vstr "D")])] [] =
      .error "KeyError: description" := by rfl

/-- Witness for C1 (amended) at the same first configuration. -/
theorem missing_description_aborts_run_witness :
    buildExamplePage noNet ["g", "s", "c", "e1"] [("title", Val.vstr "A")] =
      .error "KeyError: description" ∧
    runGallery noNet noFs
      ((["g", "s", "c", "e1"], [("title", Val.vstr "A")]) ::
        [(["g", "s", "c", "e2"],
          [("title", Val.vstr "B"), ("description", Val.vstr "D")])]) [] =
      .error "KeyError: description" :=
  missing_description_aborts_run noNet noFs _ _ _ [] "A" (by decide) rfl rfl rfl rfl

/-! ### Structure of a successful build (for C7, C8, C10) -/

theorem labelFromTitle_ok (d d1 : Record) (h : labelFromTitle d = .ok d1) :
    ∃ v, d1 = aset d "label" v := by
  unfold labelFromTitle at h
  split at h
  · injection h with h2
    exact ⟨_, h2.symm⟩
  · exact absurd h (by simp)
  · exact absurd h (by simp)

theorem labelStep_ok (d d1 : Record) (h : labelStep d = .ok d1) :
    (aget d1 "label").isSome := by
  unfold labelStep at h
  split at h
  case isTrue hcond =>
    injection h with h2
    rw [← h2]
    exact hcond
  case isFalse hcond =>
    split at h
    · split at h
      · injection h with h2
        rw [← h2, aget_aset_self]
        rfl
      · obtain ⟨v, rfl⟩ := labelFromTitle_ok _ _ h
        rw [aget_aset_self]
        rfl
    · obtain ⟨v, rfl⟩ := labelFromTitle_ok _ _ h
      rw [aget_aset_self]
      rfl

theorem descriptionStep_ok (d d1 : Record) (h : descriptionStep d = .ok d1) :
    ∃ s, d1 = aset d "description" (Val.vstr (normalizeDescription s)) := by
  unfold descriptionStep at h
  split at h
  · injection h with h2
    exact ⟨_, h2.symm⟩
  · exact absurd h (by simp)
  · exact absurd h (by simp)

theorem buildRest_ok (subdir : Path) (d0 d : Record) (effs : List Effect)
    (h : buildRest subdir d0 = .ok (some d, effs)) :
    ∃ d1, labelStep d0 = .ok d1 ∧ descriptionStep d1 = .ok d := by
  unfold buildRest at h
  cases hl : labelStep d0 with
  | error e =>
    rw [hl] at h
    simp [Bind.bind, Except.bind] at h
  | ok d1 =>
    rw [hl] at h
    simp only [Bind.bind, Except.bind] at h
    cases hdd : descriptionStep d1 with
    | error e =>
      rw [hdd] at h
      simp at h
    | ok d2 =>
      rw [hdd] at h
      simp only [Except.ok.injEq, Prod.mk.injEq, Option.some.injEq] at h
      exact ⟨d1, rfl, by rw [hdd, h.1]⟩

theorem buildExamplePage_ok (net : Val → Option HsResponse) (subdir : Path)
    (yaml : Record) (d : Record) (effs : List Effect)
    (h : buildExamplePage net subdir yaml = .ok (some d, effs)) :
    ∃ d0 d1, labelStep d0 = .ok d1 ∧ descriptionStep d1 = .ok d := by
  unfold buildExamplePage at h
  cases hid : getHsid yaml with
  | error e =>
    rw [hid] at h
    exact absurd h (by simp [Bind.bind, Except.bind])
  | ok o =>
    rw [hid] at h
    cases o with
    | none => exact ⟨_, buildRest_ok _ _ _ _ h⟩
    | some hsid =>
      replace h : (match getMetadataFromHs (net hsid) with
          | none => (.ok (none, [Effect.warn hsFailMsg, Effect.warn hsSkipMsg]) :
              Except String (Option Record × List Effect))
          | some hsdata => buildRest subdir (rupdate hsdata yaml)) =
            .ok (some d, effs) := h
      cases hm : getMetadataFromHs (net hsid) with
      | none =>
        rw [hm] at h
        exact absurd h (by simp)
      | some hsdata =>
        rw [hm] at h
        exact ⟨_, buildRest_ok _ _ _ _ h⟩

theorem copyStatic_ok_fields (exq : Path → String → Bool) (subdir : Path)
    (d d2 : Record) (effs : List Effect)
    (h : copyStatic exq subdir d = .ok (d2, effs)) :
    (∀ k, k ≠ "thumbnail" → aget d2 k = aget d k) ∧
    ∃ s, aget d2 "thumbnail" = some (Val.vstr s) := by
  unfold copyStatic at h
  split at h
  · split at h
    · split at h
      · simp only [Except.ok.injEq, Prod.mk.injEq] at h
        rw [← h.1]
        exact ⟨fun k hk => aget_aset_ne _ _ _ _ hk, _, aget_aset_self _ _ _⟩
      · exact absurd h (by simp)
    · unfold defaultThumb at h
      simp only [Except.ok.injEq, Prod.mk.injEq] at h
      rw [← h.1]
      exact ⟨fun k hk => aget_aset_ne _ _ _ _ hk, _, aget_aset_self _ _ _⟩
  · exact absurd h (by simp)
  · unfold defaultThumb at h
    simp only [Except.ok.injEq, Prod.mk.injEq] at h
    rw [← h.1]
    exact ⟨fun k hk => aget_aset_ne _ _ _ _ hk, _, aget_aset_self _ _ _⟩

/-- C7 (amended): every record at the moment it is filed into the
aggregation structure — i.e. any output of a successful
`build_example_page` then `copy_static` — has a `label` key present, a
string (hence non-null) `description`, and a string (hence non-null)
`thumbnail`.  The `label` key is guaranteed present but not non-null: see
the refutation below. -/
theorem filed_record_has_fields (net : Val → Option HsResponse)
    (exq : Path → String → Bool) (subdir : Path) (yaml : Record)
    (d : Record) (effs : List Effect) (d2 : Record) (effs2 : List Effect)
    (hb : buildExamplePage net subdir yaml = .ok (some d, effs))
    (hc : copyStatic exq subdir d = .ok (d2, effs2)) :
    (aget d2 "label").isSome ∧
    (∃ s, aget d2 "description" = some (Val.vstr s)) ∧
    (∃ s, aget d2 "thumbnail" = some (Val.vstr s)) := by
  obtain ⟨d0, d1, hls, hds⟩ := buildExamplePage_ok _ _ _ _ _ hb
  obtain ⟨s, rfl⟩ := descriptionStep_ok _ _ hds
  obtain ⟨hframe, s2, hth⟩ := copyStatic_ok_fields _ _ _ _ _ hc
  refine ⟨?_, ⟨normalizeDescription s, ?_⟩, ⟨s2, hth⟩⟩
  · rw [hframe "label" (by decide), aget_aset_ne _ _ _ _ (by decide)]
    exact labelStep_ok _ _ hls
  · rw [hframe "description" (by decide), aget_aset_self]

/-- Refutation of C7 as stated: a configuration that explicitly sets
`label: null` passes the key-presence test of line 152 untouched, so the
record filed into `subgalleries` carries a null `label`. -/
theorem filed_record_null_label_cex :
    (runGallery noNet noFs
        [(["g", "s", "c", "e"],
          [("title", Val.vstr "T"), ("description", Val.vstr "D"),
           ("label", Val.vnull)])] []).map
      (fun p => (sgGet p.1 ["g", "s"] "c").map (fun d => aget d "label")) =
      .ok [some Val.vnull] := by rfl

/-- A concrete minimal configuration (title and description only). -/
def yamlTD : Record := [("title", Val.vstr "T"), ("description", Val.vstr "D")]

/-- The record `build_example_page` produces from `yamlTD`. -/
def dTD : Record :=
  aset (aset (rupdate [] yamlTD) "label" (Val.vstr (labelOfTitle "T")))
    "description" (Val.vstr (normalizeDescription "D"))

/-- `dTD` after thumbnail substitution. -/
def dTD2 : Record := aset dTD "thumbnail" (Val.vstr defaultThumbnail)

/-- Witness for C7 (amended) on the concrete pipeline output `dTD2`. -/
theorem filed_record_has_fields_witness :
    (aget dTD2 "label").isSome ∧
    (∃ s, aget dTD2 "description" = some (Val.vstr s)) ∧
    (∃ s, aget dTD2 "thumbnail" = some (Val.vstr s)) :=
  filed_record_has_fields noNet noFs ["g", "s", "c", "e"] yamlTD dTD _ dTD2 _
    rfl rfl

/-! ### C8: aggregation keys and ordering -/

theorem pathDirname_concat (l : List String) (a : String) :
    pathDirname (l ++ [a]) = l := by
  simp [pathDirname]

theorem pathBasename_concat (l : List String) (a : String) :
    pathBasename (l ++ [a]) = a := by
  simp [pathBasename]

theorem subgallery_of_example_path (base : Path) (sub cat ex : String) :
    pathDirname (pathDirname (base ++ [sub, cat, ex])) = base ++ [sub] := by
  have h : base ++ [sub, cat, ex] = ((base ++ [sub]) ++ [cat]) ++ [ex] := by
    simp
  rw [h, pathDirname_concat, pathDirname_concat]

theorem category_of_example_path (base : Path) (sub cat ex : String) :
    pathBasename (pathDirname (base ++ [sub, cat, ex])) = cat := by
  have h : base ++ [sub, cat, ex] = ((base ++ [sub]) ++ [cat]) ++ [ex] := by
    simp
  rw [h, pathDirname_concat, pathBasename_concat]

theorem aget_catAppend_self (cats : List (String × List Record)) (cat : String)
    (d : Record) :
    aget (catAppend cats cat d) cat = some ((aget cats cat).getD [] ++ [d]) := by
  induction cats with
  | nil => simp [catAppend, aget]
  | cons p rest ih =>
    obtain ⟨c, ds⟩ := p
    by_cases h : c = cat
    · simp [catAppend, aget, h]
    · simp [catAppend, aget, h, ih]

theorem pget_aggAppend_self (sg : SubIdx) (sp : Path) (cat : String)
    (d : Record) :
    pget (aggAppend sg sp cat d) sp =
      some (catAppend ((pget sg sp).getD []) cat d) := by
  induction sg with
  | nil => simp [aggAppend, pget]
  | cons p rest ih =>
    obtain ⟨q, cats⟩ := p
    by_cases h : q = sp
    · simp [aggAppend, pget, h]
    · simp [aggAppend, pget, h, ih]

theorem sgGet_aggAppend (sg : SubIdx) (sp : Path) (cat : String) (d : Record) :
    sgGet (aggAppend sg sp cat d) sp cat = sgGet sg sp cat ++ [d] := by
  cases h : pget sg sp with
  | none => simp [sgGet, pget_aggAppend_self, aget_catAppend_self, h, aget]
  | some cats => simp [sgGet, pget_aggAppend_self, aget_catAppend_self, h]

/-- C8: a built example discovered at `.../subgallery/category/example` is
filed under the sub-gallery key two directory levels up and under the
immediate parent directory name as category (lines 209-221), creating the
groupings on first encounter, and the record lands at the end of the ordered
sequence for that pair — so traversal order is append order. -/
theorem aggregation_keys_and_order (net : Val → Option HsResponse)
    (exq : Path → String → Bool) (base : Path) (sub cat ex : String)
    (yaml : Record) (sg : SubIdx) (d : Record) (e1 : List Effect)
    (d2 : Record) (e2 : List Effect)
    (hb : buildExamplePage net (base ++ [sub, cat, ex]) yaml = .ok (some d, e1))
    (hc : copyStatic exq (base ++ [sub, cat, ex]) d = .ok (d2, e2)) :
    processOne net exq (base ++ [sub, cat, ex]) yaml sg =
      .ok (aggAppend sg (base ++ [sub]) cat d2, e1 ++ e2) ∧
    sgGet (aggAppend sg (base ++ [sub]) cat d2) (base ++ [sub]) cat =
      sgGet sg (base ++ [sub]) cat ++ [d2] := by
  constructor
  · simp [processOne, hb, hc, subgallery_of_example_path,
      category_of_example_path]
  · exact sgGet_aggAppend sg (base ++ [sub]) cat d2

/-- Witness for C8 on a concrete successful example at
`g/s/c/e/conf.yaml`. -/
theorem aggregation_keys_and_order_witness :
    processOne noNet noFs ["g", "s", "c", "e"] yamlTD [] =
      .ok (aggAppend [] ["g", "s"] "c" dTD2,
           [Effect.cacheWrite ["g", "s", "c", "e"] ".cache.yaml" dTD,
            Effect.renderPage "landingpage.rst" dTD ["g", "s", "c", "e", "index.rst"],
            Effect.warn thumbWarnMsg]) ∧
    sgGet (aggAppend [] ["g", "s"] "c" dTD2) ["g", "s"] "c" =
      sgGet [] ["g", "s"] "c" ++ [dTD2] :=
  aggregation_keys_and_order noNet noFs ["g"] "s" "c" "e" yamlTD [] dTD _ dTD2 _
    rfl rfl

/-! ### C9 and C10: the Static Asset Relocator -/

/-- C9: a record with no `thumbnail` key, or whose string `thumbnail` path
does not exist on disk, gets the warning of line 105 and the fixed default
asset name, and no file copy is performed (the effect list holds only the
warning). -/
theorem missing_thumbnail_substitutes_default (exq : Path → String → Bool)
    (subdir : Path) (data : Record) :
    (aget data "thumbnail" = none →
      copyStatic exq subdir data =
        .ok (aset data "thumbnail" (Val.vstr defaultThumbnail),
             [Effect.warn thumbWarnMsg])) ∧
    (∀ p, aget data "thumbnail" = some (Val.vstr p) → exq subdir p = false →
      copyStatic exq subdir data =
        .ok (aset data "thumbnail" (Val.vstr defaultThumbnail),
             [Effect.warn thumbWarnMsg])) := by
  constructor
  · intro h
    simp [copyStatic, h, defaultThumb]
  · intro p h hex
    simp [copyStatic, h, hex, defaultThumb]

/-- Witness for C9: both the absent-key case and the nonexistent-file
case. -/
theorem missing_thumbnail_substitutes_default_witness :
    copyStatic noFs ["g"] [("label", Val.vstr "x")] =
      .ok (aset [("label", Val.vstr "x")] "thumbnail"
             (Val.vstr defaultThumbnail), [Effect.warn thumbWarnMsg]) ∧
    copyStatic noFs ["g"] [("label", Val.vstr "x"),
                           ("thumbnail", Val.vstr "t.png")] =
      .ok (aset [("label", Val.vstr "x"), ("thumbnail", Val.vstr "t.png")]
             "thumbnail" (Val.vstr defaultThumbnail),
           [Effect.warn thumbWarnMsg]) :=
  ⟨(missing_thumbnail_substitutes_default noFs ["g"] _).1 rfl,
   (missing_thumbnail_substitutes_default noFs ["g"] _).2 "t.png" rfl rfl⟩

/-- C10: whenever `copy_static` returns normally it changes nothing but the
`thumbnail` field: every other key keeps its value (so no key other than
`thumbnail` is added or removed), and the `thumbnail` key is present in the
result. -/
theorem copy_static_frame (exq : Path → String → Bool) (subdir : Path)
    (data d2 : Record) (effs : List Effect)
    (h : copyStatic exq subdir data = .ok (d2, effs)) :
    (∀ k, k ≠ "thumbnail" → aget d2 k = aget data k) ∧
    (aget d2 "thumbnail").isSome := by
  obtain ⟨hframe, s, hth⟩ := copyStatic_ok_fields _ _ _ _ _ h
  exact ⟨hframe, by rw [hth]; rfl⟩

/-- A filesystem oracle on which every thumbnail file exists. -/
def allFs : Path → String → Bool := fun _ _ => true

/-- A record with a label and an existing thumbnail. -/
def recLT : Record := [("label", Val.vstr "L"), ("thumbnail", Val.vstr "t.png")]

/-- `recLT` after the thumbnail copy-and-rename. -/
def recLT2 : Record := aset recLT "thumbnail" (Val.vstr "thumbnail-L")

/-- Witness for C10 on the copy branch: `label` is untouched and
`thumbnail` is present. -/
theorem copy_static_frame_witness :
    aget recLT2 "label" = aget recLT "label" ∧
    (aget recLT2 "thumbnail").isSome :=
  ⟨(copy_static_frame allFs ["g"] recLT recLT2 _ rfl).1 "label" (by decide),
   (copy_static_frame allFs ["g"] recLT recLT2 _ rfl).2⟩

/-- A configuration with an explicitly null remote id: line 134 extracts no
remote resource identifier from it (no fetch is attempted), yet line 155
still finds the `id` entry. -/
def cfgNullId : Record :=
  [("title", Val.vstr "T"), ("description", Val.vstr "D"),
   ("hydroshare", Val.vmap [("id", Val.vnull)])]

/-- Refutation of C5 as stated: `cfgNullId` has no explicit `label` and no
remote resource identifier (the id-extraction of lines 134-137 yields none,
and the build succeeds under a network oracle that would fail any fetch),
yet the derived label is the null id copied by line 155 — not the reversible
title encoding, and nothing decodable back to the title bytes. -/
theorem label_derivation_null_id_cex :
    getHsid cfgNullId = .ok none ∧
    (buildExamplePage noNet ["g", "s", "c", "e"] cfgNullId).map
        (fun p => p.1.map (fun d => aget d "label")) =
      .ok (some (some Val.vnull)) ∧
    Val.vnull ≠ Val.vstr (labelOfTitle "T") :=
  ⟨rfl, rfl, fun h => Val.noConfusion h⟩

end Gallery
